import Mathlib

/-!
Shallow embedding of `src/flask_app.py` (a Flask app that fetches a YouTube
transcript, segments it by elapsed time, and summarizes each segment).

Modelling conventions:
* Python `str` is modelled as `List Char` (`Str`).
* Python `float` second-offsets are modelled as `Rat` (exact arithmetic in
  place of IEEE floats; the comparisons under study are order comparisons
  that coincide on the representable inputs).
* The two external collaborators (the caption source and the completion
  service) are passed in explicitly: the caption fetch as a `FetchResult`
  value, the completion service as an oracle `Str → Str → Option Str`
  (system message, user message ↦ completion, `none` = service fault).
* Python regex character classes `\w`/`\s` are modelled by the ASCII
  predicates below (the Unicode extension is irrelevant to the claims).
* `urllib.parse.urlparse` / `parse_qs` (stdlib collaborators of
  `extract_video_id`) are embedded following CPython's `urlsplit` /
  `parse_qsl`; percent-decoding and the `;`-parameter split are omitted
  (none of the inputs under study contain `%`, `+` or `;`).
-/

namespace SummarizeYoutube

/-- Python `str` as a list of characters. -/
abbrev Str := List Char

/-- Model of the regex class `\w` (word character): ASCII alphanumeric or
underscore, as in `re.sub(r'[^\w\s]', ...)` of `sanitize_text`. -/
def isWordChar (c : Char) : Bool := c.isAlphanum || c == '_'

/-- Model of the regex class `\s` (whitespace): space, tab, newline,
carriage return, vertical tab, form feed. -/
def isWhitespaceChar (c : Char) : Bool :=
  c == ' ' || c == '\t' || c == '\n' || c == '\r' || c == Char.ofNat 11 || c == Char.ofNat 12

/-- A character survives `sanitize_text` iff it is a word character or
whitespace (the regex keeps exactly `[\w\s]`). -/
def isKeepChar (c : Char) : Bool := isWordChar c || isWhitespaceChar c

/-- Embeds `sanitize_text` (flask_app.py lines 44-56):
`re.sub(r'[^\w\s]', '', text)` deletes every character outside `[\w\s]`,
i.e. filters the string by `isKeepChar`. -/
def sanitize_text (text : Str) : Str := text.filter isKeepChar

/-- Python `str.strip()`: remove leading and trailing whitespace. -/
def pyStrip (s : Str) : Str :=
  ((s.dropWhile isWhitespaceChar).reverse.dropWhile isWhitespaceChar).reverse

/-- One caption cue as delivered by the caption source: fields `text`,
`start` (seconds) and `duration` (seconds). -/
structure Cue where
  text : Str
  start : Rat
  duration : Rat
deriving DecidableEq

/-- Outcome of `YouTubeTranscriptApi.get_transcript(video_id)` (external
collaborator): the cue list, or one of the two named faults, or any other
fault. -/
inductive FetchResult where
  | ok (transcript : List Cue)
  | transcriptsDisabled
  | noTranscriptFound
  | otherError (msg : Str)
deriving DecidableEq

/-- The loop state of the segmentation scan in `get_transcript`
(flask_app.py lines 84-100): the finished segments, the accumulator
`segment_text`, and the running threshold `break_point`. -/
structure SegState where
  segments : List Str
  segment_text : Str
  break_point : Int
deriving DecidableEq

/-- One iteration of the scan (flask_app.py lines 89-96): sanitize the
cue text; if `blurb["start"] / 60.0 >= break_point`, close the accumulator
(stripped) as a segment, restart it with the current cue's text and advance
`break_point`; otherwise append the text, space-separated. -/
def segStep (summary_scope : Int) (st : SegState) (blurb : Cue) : SegState :=
  let sanitized_text := sanitize_text blurb.text
  if blurb.start / 60 ≥ (st.break_point : Rat) then
    { segments := st.segments ++ [pyStrip st.segment_text]
      segment_text := sanitized_text
      break_point := st.break_point + summary_scope }
  else
    { st with segment_text := st.segment_text ++ ' ' :: sanitized_text }

/-- The whole segmentation scan of `get_transcript` (flask_app.py lines
84-100): fold the cues from the initial state (`segments = []`,
`segment_text = ""`, `break_point = summary_scope`), then flush a
non-empty accumulator as the final segment (`if segment_text:`). -/
def segmentTranscript (transcript : List Cue) (summary_scope : Int) : List Str :=
  let st := transcript.foldl (segStep summary_scope) ⟨[], [], summary_scope⟩
  if st.segment_text ≠ [] then st.segments ++ [pyStrip st.segment_text] else st.segments

/-- The informational sentence returned when transcripts are disabled
(flask_app.py line 78). -/
def transcriptsDisabledMsg (video_id : Str) : Str :=
  ("Transcripts are disabled for the video with ID \x27".data) ++ video_id ++ ("\x27.".data)

/-- The informational sentence returned when no transcript is found
(flask_app.py line 80). -/
def noTranscriptFoundMsg (video_id : Str) : Str :=
  ("No transcript found for the video with ID \x27".data) ++ video_id ++ ("\x27.".data)

/-- Embeds `get_transcript` (flask_app.py lines 59-112). The fetch outcome
is passed in as `fetch`. `TranscriptsDisabled` / `NoTranscriptFound` yield
a one-element informational list; any other fetch fault re-raises (modelled
as `Except.error`); a fetched cue list is segmented. -/
def get_transcript (fetch : FetchResult) (video_id : Str) (summary_scope : Int) :
    Except Str (List Str) :=
  match fetch with
  | .transcriptsDisabled => .ok [transcriptsDisabledMsg video_id]
  | .noTranscriptFound => .ok [noTranscriptFoundMsg video_id]
  | .otherError msg =>
      .error (("An unexpected error occurred while retrieving the transcript: ".data) ++ msg)
  | .ok transcript => .ok (segmentTranscript transcript summary_scope)

/-- Split a string at the first occurrence of `sep`: `none` when `sep` does
not occur, otherwise the parts before and after the first occurrence
(Python `str.split(sep, 1)` / `str.find`). -/
def splitOnFirst (sep : Char) : Str → Option (Str × Str)
  | [] => none
  | c :: rest =>
    if c = sep then some ([], rest)
    else
      match splitOnFirst sep rest with
      | none => none
      | some (a, b) => some (c :: a, b)

/-- Tail of Python `str.split(sep)`: accumulate the current chunk
(reversed) and start a fresh chunk at each separator. -/
def splitAllAux (sep : Char) : Str → Str → List Str
  | acc, [] => [acc.reverse]
  | acc, c :: rest =>
    if c = sep then acc.reverse :: splitAllAux sep [] rest
    else splitAllAux sep (c :: acc) rest

/-- Python `str.split(sep)`: split at every occurrence of `sep`, keeping
empty chunks (the empty string splits into one empty chunk, and a leading
or trailing separator contributes an empty chunk). -/
def splitAll (sep : Char) (l : Str) : List Str := splitAllAux sep [] l

/-- Characters allowed in a URL scheme (CPython `scheme_chars`):
alphanumerics, `+`, `-`, `.`. -/
def isSchemeChar (c : Char) : Bool := c.isAlphanum || c == '+' || c == '-' || c == '.'

/-- A character belongs to the netloc of a URL until one of the three
delimiters `/`, `?`, `#` appears (CPython `_splitnetloc`). -/
def isNetlocChar (c : Char) : Bool := !(c == '/' || c == '?' || c == '#')

/-- CPython `urlsplit` scheme test: the text before the first `:` is
non-empty, starts with an ASCII letter, and is all scheme characters. -/
def isValidScheme (pre : Str) : Bool :=
  match pre with
  | [] => false
  | c :: _ => c.isAlpha && pre.all isSchemeChar

/-- The components produced by `urllib.parse.urlparse` that
`extract_video_id` consumes. -/
structure UrlParts where
  scheme : Str
  netloc : Str
  path : Str
  query : Str
  fragment : Str
deriving DecidableEq

/-- The fragment / query split that ends CPython `urlsplit`: first split
off the fragment at the first `#`, then the query at the first `?`. -/
def splitFragmentQuery (u : Str) : Str × Str × Str :=
  let fragSplit :=
    match splitOnFirst '#' u with
    | some (a, b) => (a, b)
    | none => (u, [])
  let querySplit :=
    match splitOnFirst '?' fragSplit.1 with
    | some (a, b) => (a, b)
    | none => (fragSplit.1, [])
  (querySplit.1, querySplit.2, fragSplit.2)

/-- The scheme split of CPython `urlsplit`: when the text before the
first `:` is a well-formed scheme, return it lowercased together with the
remainder, else no scheme. -/
def schemeSplit (url : Str) : Str × Str :=
  match splitOnFirst ':' url with
  | some (pre, post) =>
    if isValidScheme pre then (pre.map Char.toLower, post)
    else (([] : Str), url)
  | none => (([] : Str), url)

/-- The netloc split of CPython `urlsplit` (`_splitnetloc`): after a
leading `//`, the netloc runs to the first `/`, `?` or `#` (which stays
with the remainder). -/
def netlocSplit (rest : Str) : Str × Str :=
  match rest with
  | '/' :: '/' :: r => (r.takeWhile isNetlocChar, r.dropWhile isNetlocChar)
  | other => (([] : Str), other)

/-- Embeds `urllib.parse.urlparse` (CPython `urlsplit`) for the use made
by `extract_video_id`: split off a scheme when the text before the first
`:` is a well-formed scheme, split off a netloc after `//` up to the first
`/`, `?` or `#`, then split fragment and query. Percent-decoding and the
`;`-parameter split of `urlparse` are omitted (no input under study
contains them). -/
def urlparse (url : Str) : UrlParts :=
  let s := schemeSplit url
  let n := netlocSplit s.2
  let pqf := splitFragmentQuery n.2
  ⟨s.1, n.1, pqf.1, pqf.2.1, pqf.2.2⟩

/-- One `name=value` pair of CPython `parse_qsl`: split at the first `=`
(a pair without `=` is dropped when not strict), drop blank values, keep
the value when the name matches `key`. -/
def qsPair (key : Str) (pair : Str) : Option Str :=
  match splitOnFirst '=' pair with
  | none => none
  | some (k, v) => if k = key ∧ v ≠ [] then some v else none

/-- Embeds `parse_qs(query)[key][0]` guarded by `key in parse_qs(query)`:
CPython `parse_qsl` splits the query on `&`, processes each pair with
`qsPair`, and the dict collects values per key in order; `[0]` takes the
first. Returns `none` when the key is absent from the dict. -/
def parse_qs_first (query : Str) (key : Str) : Option Str :=
  ((splitAll '&' query).filterMap (qsPair key)).head?

/-- Embeds `extract_video_id` (flask_app.py lines 114-150): the `v` query
parameter wins; else a `youtu.be` host with non-empty path yields the path
minus its leading `/`; else a path containing an `embed` or `shorts`
component yields the last path component; else `ValueError`. -/
def extract_video_id (youtube_url : Str) : Except Str Str :=
  let parsed_url := urlparse youtube_url
  match parse_qs_first parsed_url.query ("v".data) with
  | some v => .ok v
  | none =>
    if parsed_url.netloc = ("youtu.be".data) ∧ parsed_url.path ≠ [] then
      .ok (parsed_url.path.drop 1)
    else if ("embed".data) ∈ splitAll '/' parsed_url.path then
      .ok ((splitAll '/' parsed_url.path).getLast?.getD [])
    else if ("shorts".data) ∈ splitAll '/' parsed_url.path then
      .ok ((splitAll '/' parsed_url.path).getLast?.getD [])
    else .error ("No valid video ID found in the provided YouTube URL".data)

/-- The fixed system instruction (flask_app.py line 30). -/
def system_role_description : Str :=
  ("You are a co-reference based summarization algorithm".data)

/-- The fixed user-instruction prefix (flask_app.py line 170). -/
def user_input : Str :=
  ("Summarize the following text by returning one sentence that uses mostly words from the text itself:\n  ".data)

/-- Decimal rendering of a Python int in an f-string. -/
def intToStr (n : Int) : Str := (toString n).data

/-- Embeds `create_youtube_link` (flask_app.py lines 205-216): the
f-string rendering `https://youtu.be/` + video id + `?t=` + the timestamp
converted to seconds. -/
def create_youtube_link (video_id : Str) (timestamp_in_minutes : Int) : Str :=
  ("https://youtu.be/".data) ++ video_id ++ ("?t=".data) ++ intToStr (timestamp_in_minutes * 60)

/-- The display entry built for segment `i` (flask_app.py lines 188-192):
with `html_link`, an anchor tag whose href is the timestamp link and whose
label is the timestamp, followed by the summary; otherwise the plain
timestamp-colon-summary string. -/
def displayEntry (html_link : Bool) (video_id : Str) (summary_scope : Int) (i : Nat)
    (response_content : Str) : Str :=
  if html_link then
    ("<a href=".data) ++ create_youtube_link video_id ((i : Int) * summary_scope)
      ++ (">".data) ++ intToStr ((i : Int) * summary_scope) ++ (":</a> ".data)
      ++ response_content
  else
    intToStr ((i : Int) * summary_scope) ++ (": ".data) ++ response_content

/-- The `for i, seg in enumerate(segments)` loop of
`summarize_video_segments` starting at index `i`: sanitize the segment,
call the completion service (`none` = service fault, which aborts the
whole batch), sanitize the completion, and prepend the timestamp label. -/
def summarizeFrom (llm : Str → Str → Option Str) (video_id : Str) (summary_scope : Int)
    (html_link : Bool) : Nat → List Str → Option (List Str)
  | _, [] => some []
  | i, seg :: rest =>
    let sanitized_segment := sanitize_text seg
    match llm system_role_description (user_input ++ sanitized_segment) with
    | none => none
    | some raw =>
      match summarizeFrom llm video_id summary_scope html_link (i + 1) rest with
      | none => none
      | some out => some (displayEntry html_link video_id summary_scope i (sanitize_text raw) :: out)

/-- Embeds `summarize_video_segments` (flask_app.py lines 152-202), the
completion service passed in as the oracle `llm`. -/
def summarize_video_segments (llm : Str → Str → Option Str) (segments : List Str)
    (video_id : Str) (summary_scope : Int) (html_link : Bool) : Option (List Str) :=
  summarizeFrom llm video_id summary_scope html_link 0 segments

/-- Outcome of the POST handler: a rendered result page, or a flashed
error message followed by a redirect back to the form. -/
inductive HandlerResult where
  | page (summaries : List Str)
  | formError (message : Str)
deriving DecidableEq

/-- The flash produced by the handler's BadRequest branch: werkzeug
renders the exception as the HTTP code and name, a colon, then the
description passed at raise time (flask_app.py line 318). -/
def badRequestFlash : Str :=
  ("400 Bad Request: Invalid video key or summary scope.".data)

/-- The generic flash of the catch-all handler (flask_app.py line 341). -/
def genericFlash : Str :=
  ("An unexpected error occurred while processing your request. Please try again later.".data)

/-- Embeds the POST handler `summarizer_result` (flask_app.py lines
298-344), after form decoding: extract the video id (a `ValueError` from
extraction is caught by the catch-all `except Exception` branch, hence the
generic flash); raise `BadRequest` when the id is empty or the chunk size
non-positive (flashed as `str(e)`); then fetch-and-segment and summarize,
any fault flashing the generic message; on success append `"<br>"` to
every summary and render. -/
def summarizer_result (fetch : FetchResult) (llm : Str → Str → Option Str)
    (youtube_url : Str) (min_chunk : Int) : HandlerResult :=
  match extract_video_id youtube_url with
  | .error _ => .formError genericFlash
  | .ok video_id =>
    if video_id = [] ∨ min_chunk ≤ 0 then .formError badRequestFlash
    else
      match get_transcript fetch video_id min_chunk with
      | .error _ => .formError genericFlash
      | .ok segments =>
        match summarize_video_segments llm segments video_id min_chunk true with
        | none => .formError genericFlash
        | some summaries => .page (summaries.map fun x => x ++ ("<br>".data))

/-- Remove every whitespace character (spec-side helper: the segmenter
preserves cue text up to whitespace). -/
def stripAllWS (s : Str) : Str := s.filter fun c => !(isWhitespaceChar c)

/-- The index of the `summary_scope`-minute window a cue's start time
falls in: `⌊(start / 60) / summary_scope⌋` (spec-side helper for the
segment-count analysis). -/
def cueWindow (summary_scope : Int) (c : Cue) : Int :=
  ⌊(c.start / 60) / (summary_scope : Rat)⌋

/-- The sortedness/density relation between consecutive cues used by the
segment-count analysis: starts are nondecreasing and the gap is less than
`summary_scope` minutes. -/
def CueGap (summary_scope : Int) (a b : Cue) : Prop :=
  a.start ≤ b.start ∧ b.start / 60 < a.start / 60 + (summary_scope : Rat)

/-- The segmentation scan only ever appends to the finished-segments list. -/
theorem segFold_segments_extend (scope : Int) (cs : List Cue) (st : SegState) :
    ∃ t, (cs.foldl (segStep scope) st).segments = st.segments ++ t := by
  induction cs generalizing st with
  | nil => exact ⟨[], by simp⟩
  | cons b cs ih =>
    obtain ⟨t, ht⟩ := ih (segStep scope st b)
    rw [List.foldl_cons, ht]
    simp only [segStep]
    by_cases h : b.start / 60 ≥ (st.break_point : Rat)
    · rw [if_pos h]
      exact ⟨[pyStrip st.segment_text] ++ t, by simp⟩
    · rw [if_neg h]
      exact ⟨t, rfl⟩

/-- The running threshold `break_point` stays a multiple of
`summary_scope` throughout the scan. -/
theorem segFold_break_point_dvd (scope : Int) (cs : List Cue) (st : SegState)
    (h : scope ∣ st.break_point) : scope ∣ (cs.foldl (segStep scope) st).break_point := by
  induction cs generalizing st with
  | nil => exact h
  | cons b cs ih =>
    rw [List.foldl_cons]
    apply ih
    simp only [segStep]
    by_cases hc : b.start / 60 ≥ (st.break_point : Rat)
    · rw [if_pos hc]
      exact dvd_add h dvd_rfl
    · rw [if_neg hc]
      exact h

/-- Claim C8: `sanitize_text` is total (it is a function on all of `Str`),
removes exactly the characters outside the word-or-whitespace class
(result is a subsequence of the input consisting of keepable characters,
and every keepable character keeps its multiplicity), and is idempotent. -/
theorem sanitize_text_idempotent_exact (s : Str) :
    sanitize_text (sanitize_text s) = sanitize_text s ∧
    (sanitize_text s).Sublist s ∧
    (∀ c ∈ sanitize_text s, isKeepChar c = true) ∧
    (∀ c : Char, isKeepChar c = true → (sanitize_text s).count c = s.count c) := by
  refine ⟨?_, List.filter_sublist s, fun c hc => List.of_mem_filter hc, fun c hc => ?_⟩
  · unfold sanitize_text
    rw [List.filter_filter]
    simp
  · exact List.count_filter hc

/-- Claim C10: `extract_video_id` maps the bare short-link URL
`https://youtu.be/` (path `/`) to the empty video id instead of raising,
and the POST handler then rejects the empty id through its `BadRequest`
check, flashing the specific message, for every fetch/completion
collaborator and every chunk size. -/
theorem extract_empty_shortlink_id :
    extract_video_id ("https://youtu.be/".data) = .ok [] ∧
    ∀ (fetch : FetchResult) (llm : Str → Str → Option Str) (min_chunk : Int),
      summarizer_result fetch llm ("https://youtu.be/".data) min_chunk
        = .formError badRequestFlash := by
  refine ⟨rfl, fun fetch llm min_chunk => ?_⟩
  simp [summarizer_result, show extract_video_id ("https://youtu.be/".data) = .ok [] from rfl]

/-- Claim C9: when the very first cue already lies at or past the first
threshold (`start / 60 >= summary_scope`), the scan closes the empty
accumulator first, so the first returned segment is the empty string. -/
theorem first_segment_empty (c : Cue) (rest : List Cue) (video_id : Str) (scope : Int)
    (H : (scope : Rat) ≤ c.start / 60) :
    ∃ segs, get_transcript (.ok (c :: rest)) video_id scope = .ok segs ∧
      segs.head? = some [] := by
  have hstep : segStep scope ⟨[], [], scope⟩ c
      = ⟨[[]], sanitize_text c.text, scope + scope⟩ := by
    simp only [segStep]
    rw [if_pos (by exact H)]
    rfl
  refine ⟨segmentTranscript (c :: rest) scope, rfl, ?_⟩
  obtain ⟨t, ht⟩ :=
    segFold_segments_extend scope rest ⟨[[]], sanitize_text c.text, scope + scope⟩
  simp only [segmentTranscript, List.foldl_cons, hstep]
  split
  · rw [ht]
    rfl
  · rw [ht]
    rfl

/-- Closed instance for C9: a single cue starting at 120 s with
`summary_scope = 1` produces a leading empty segment. -/
theorem first_segment_empty_witness :
    ∃ segs, get_transcript (.ok [⟨("a".data), 120, 1⟩]) ("v".data) 1 = .ok segs ∧
      segs.head? = some [] :=
  first_segment_empty ⟨("a".data), 120, 1⟩ [] ("v".data) 1 (by norm_num)

/-- Claim C3: the scan's threshold is always a multiple of
`summary_scope`, and a cue whose start time in minutes equals the current
threshold exactly triggers the `>=` branch: the segment being closed is
exactly the stripped accumulator (the cue's text excluded), and the next
segment's accumulator starts as exactly this cue's sanitized text. -/
theorem boundary_cue_starts_next_segment (pre : List Cue) (b : Cue) (scope : Int)
    (st : SegState) (Hst : st = pre.foldl (segStep scope) ⟨[], [], scope⟩)
    (Hexact : b.start / 60 = (st.break_point : Rat)) :
    scope ∣ st.break_point ∧
    segStep scope st b
      = ⟨st.segments ++ [pyStrip st.segment_text], sanitize_text b.text,
          st.break_point + scope⟩ := by
  constructor
  · rw [Hst]
    exact segFold_break_point_dvd scope pre ⟨[], [], scope⟩ dvd_rfl
  · simp only [segStep]
    rw [if_pos (ge_of_eq Hexact)]

/-- Closed instance for C3: after a cue at 0 s with `summary_scope = 2`
the threshold is 2 min; a cue at exactly 120 s closes the segment without
its own text and starts the next one with it. -/
theorem boundary_cue_starts_next_segment_witness :
    (2:Int) ∣ (⟨[], (" a".data), 2⟩ : SegState).break_point ∧
    segStep 2 ⟨[], (" a".data), 2⟩ ⟨("b".data), 120, 1⟩
      = ⟨(⟨[], (" a".data), 2⟩ : SegState).segments
            ++ [pyStrip (⟨[], (" a".data), 2⟩ : SegState).segment_text],
          sanitize_text ("b".data),
          (⟨[], (" a".data), 2⟩ : SegState).break_point + 2⟩ :=
  boundary_cue_starts_next_segment [⟨("a".data), 0, 1⟩] ⟨("b".data), 120, 1⟩ 2
    ⟨[], (" a".data), 2⟩
    (by norm_num [List.foldl, segStep]; decide)
    (by norm_num)

/-- Claim C4: `get_transcript` propagates an error exactly when the fetch
fails for a reason other than the two named conditions; transcripts
disabled / no transcript found instead produce a one-element list whose
sentence references the video id, and that sentence flows through
`summarize_video_segments` without a fault (given a responding completion
service). -/
theorem transcript_fault_policy (fetch : FetchResult) (video_id : Str) (scope : Int)
    (llm : Str → Str → Option Str)
    (Hllm : ∀ sys usr, ∃ r, llm sys usr = some r) :
    ((∃ e, get_transcript fetch video_id scope = .error e) ↔ ∃ m, fetch = .otherError m) ∧
    (get_transcript .transcriptsDisabled video_id scope
        = .ok [transcriptsDisabledMsg video_id] ∧
      ∃ pre post, transcriptsDisabledMsg video_id = pre ++ video_id ++ post) ∧
    (get_transcript .noTranscriptFound video_id scope
        = .ok [noTranscriptFoundMsg video_id] ∧
      ∃ pre post, noTranscriptFoundMsg video_id = pre ++ video_id ++ post) ∧
    (∃ out, summarize_video_segments llm [transcriptsDisabledMsg video_id] video_id scope true
        = some out ∧ out.length = 1) := by
  refine ⟨?_, ⟨rfl, ?_⟩, ⟨rfl, ?_⟩, ?_⟩
  · cases fetch <;> simp [get_transcript]
  · exact ⟨("Transcripts are disabled for the video with ID \x27".data), ("\x27.".data), rfl⟩
  · exact ⟨("No transcript found for the video with ID \x27".data), ("\x27.".data), rfl⟩
  · obtain ⟨r, hr⟩ :=
      Hllm system_role_description (user_input ++ sanitize_text (transcriptsDisabledMsg video_id))
    exact ⟨[displayEntry true video_id scope 0 (sanitize_text r)],
      by simp [summarize_video_segments, summarizeFrom, hr], rfl⟩

/-- Closed instance for C4 with a disabled-transcripts fetch and an
always-responding completion oracle. -/
theorem transcript_fault_policy_witness :
    ((∃ e, get_transcript .transcriptsDisabled ("utU9".data) 2 = .error e) ↔
      ∃ m, FetchResult.transcriptsDisabled = .otherError m) ∧
    (get_transcript .transcriptsDisabled ("utU9".data) 2
        = .ok [transcriptsDisabledMsg ("utU9".data)] ∧
      ∃ pre post, transcriptsDisabledMsg ("utU9".data) = pre ++ ("utU9".data) ++ post) ∧
    (get_transcript .noTranscriptFound ("utU9".data) 2
        = .ok [noTranscriptFoundMsg ("utU9".data)] ∧
      ∃ pre post, noTranscriptFoundMsg ("utU9".data) = pre ++ ("utU9".data) ++ post) ∧
    (∃ out, summarize_video_segments (fun _ _ => some ("ok".data))
        [transcriptsDisabledMsg ("utU9".data)] ("utU9".data) 2 true
        = some out ∧ out.length = 1) :=
  transcript_fault_policy .transcriptsDisabled ("utU9".data) 2 (fun _ _ => some ("ok".data))
    (fun _ _ => ⟨("ok".data), rfl⟩)

/-- The enumerate loop of `summarize_video_segments`, started at index
`i`: on success the output matches the input in length, and the entry for
offset `j` is the display entry for index `i + j` built from the sanitized
completion of the sanitized `j`-th input segment. -/
theorem summarizeFrom_spec (llm : Str → Str → Option Str) (video_id : Str) (scope : Int)
    (hl : Bool) (segs : List Str) :
    ∀ (i : Nat) (out : List Str),
      summarizeFrom llm video_id scope hl i segs = some out →
      out.length = segs.length ∧
      ∀ j, j < segs.length →
        ∃ raw, llm system_role_description (user_input ++ sanitize_text (segs.getD j []))
            = some raw ∧
          out.getD j [] = displayEntry hl video_id scope (i + j) (sanitize_text raw) := by
  induction segs with
  | nil =>
    intro i out h
    simp only [summarizeFrom, Option.some.injEq] at h
    subst h
    exact ⟨rfl, fun j hj => absurd hj (by simp)⟩
  | cons seg rest ih =>
    intro i out h
    simp only [summarizeFrom] at h
    cases hr : llm system_role_description (user_input ++ sanitize_text seg) with
    | none =>
      rw [hr] at h
      simp at h
    | some raw =>
      rw [hr] at h
      cases hrec : summarizeFrom llm video_id scope hl (i + 1) rest with
      | none =>
        rw [hrec] at h
        simp at h
      | some outRest =>
        rw [hrec] at h
        simp only [Option.some.injEq] at h
        subst h
        obtain ⟨hlen, hspec⟩ := ih (i + 1) outRest hrec
        refine ⟨by simp [hlen], fun j hj => ?_⟩
        cases j with
        | zero =>
          exact ⟨raw, by simpa using hr, by simp⟩
        | succ j' =>
          obtain ⟨raw', h1, h2⟩ := hspec j' (by simpa using hj)
          refine ⟨raw', by simpa using h1, ?_⟩
          simpa [show i + 1 + j' = i + (j' + 1) from by omega] using h2

/-- Claim C7: on success `summarize_video_segments` returns as many
entries as it was given segments, in order; the `j`-th entry is the
display entry for timestamp `j * summary_scope` built from the completion
of the `j`-th segment (an anchor to the timestamp link when linking is
enabled, a plain timestamp-colon-summary string otherwise); and the
timestamp link for id abc123 at minute 4 is youtu.be/abc123?t=240. -/
theorem summaries_length_order_link (llm : Str → Str → Option Str) (segments : List Str)
    (video_id : Str) (scope : Int) (html_link : Bool) (out : List Str)
    (H : summarize_video_segments llm segments video_id scope html_link = some out) :
    out.length = segments.length ∧
    (∀ j, j < segments.length →
      ∃ raw, llm system_role_description (user_input ++ sanitize_text (segments.getD j []))
          = some raw ∧
        out.getD j [] = displayEntry html_link video_id scope j (sanitize_text raw)) ∧
    create_youtube_link ("abc123".data) 4 = ("https://youtu.be/abc123?t=240".data) := by
  obtain ⟨h1, h2⟩ := summarizeFrom_spec llm video_id scope html_link segments 0 out H
  refine ⟨h1, fun j hj => ?_, by decide⟩
  simpa using h2 j hj

/-- Closed instance for C7 with a one-segment input and a fixed
completion oracle. -/
theorem summaries_length_order_link_witness :
    ((summarize_video_segments (fun _ _ => some ("ok".data)) [("hi".data)] ("vid".data) 2
        true).getD []).length = [("hi".data)].length ∧
    (∀ j, j < [("hi".data)].length →
      ∃ raw, (fun _ _ => some ("ok".data) : Str → Str → Option Str) system_role_description
          (user_input ++ sanitize_text ([("hi".data)].getD j [])) = some raw ∧
        ((summarize_video_segments (fun _ _ => some ("ok".data)) [("hi".data)] ("vid".data) 2
            true).getD []).getD j []
          = displayEntry true ("vid".data) 2 j (sanitize_text raw)) ∧
    create_youtube_link ("abc123".data) 4 = ("https://youtu.be/abc123?t=240".data) :=
  summaries_length_order_link (fun _ _ => some ("ok".data)) [("hi".data)] ("vid".data) 2 true
    ((summarize_video_segments (fun _ _ => some ("ok".data)) [("hi".data)] ("vid".data) 2
      true).getD []) rfl

/-- Claim C5 counterexample: for the malformed URL
`https://example.com/watch` (matching none of the four patterns) the POST
handler flashes the GENERIC message, not a specific one — extraction's
`ValueError` is caught by the catch-all branch, contradicting the claim
that malformed URLs are reported specifically. -/
theorem malformed_url_generic_flash :
    summarizer_result (.ok []) (fun _ _ => some []) ("https://example.com/watch".data) 2
      = .formError genericFlash ∧ genericFlash ≠ badRequestFlash :=
  ⟨by decide, by decide⟩

/-- Claim C5 (amended): a non-positive chunk size or an empty extracted
video id is flashed with the specific `BadRequest` message and the user is
returned to the form; a malformed URL (extraction failure) and any other
unexpected fault (e.g. a transcript-retrieval fault) are flashed with only
the generic message. -/
theorem handler_flash_policy (youtube_url : Str) (fetch : FetchResult)
    (llm : Str → Str → Option Str) (min_chunk : Int) :
    (∀ e, extract_video_id youtube_url = .error e →
      summarizer_result fetch llm youtube_url min_chunk = .formError genericFlash) ∧
    (∀ vid, extract_video_id youtube_url = .ok vid → (vid = [] ∨ min_chunk ≤ 0) →
      summarizer_result fetch llm youtube_url min_chunk = .formError badRequestFlash) ∧
    (∀ vid m, extract_video_id youtube_url = .ok vid → vid ≠ [] → 0 < min_chunk →
      fetch = .otherError m →
      summarizer_result fetch llm youtube_url min_chunk = .formError genericFlash) := by
  refine ⟨fun e he => ?_, fun vid hv hcond => ?_, fun vid m hv hne hpos hf => ?_⟩
  · simp [summarizer_result, he]
  · simp [summarizer_result, hv, hcond]
  · subst hf
    have hc : ¬(vid = [] ∨ min_chunk ≤ 0) := by
      push_neg
      exact ⟨hne, by omega⟩
    simp [summarizer_result, hv, hc, get_transcript]

/-- Closed instance for C5 (amended): a transcript-retrieval fault on a
well-formed short-link URL flashes the generic message. -/
theorem handler_flash_policy_witness :
    summarizer_result (.otherError ("boom".data)) (fun _ _ => some [])
      ("https://youtu.be/x".data) 2 = .formError genericFlash :=
  (handler_flash_policy ("https://youtu.be/x".data) (.otherError ("boom".data))
      (fun _ _ => some []) 2).2.2 ("x".data) ("boom".data) rfl (by decide) (by norm_num) rfl

/-- Removing all whitespace distributes over append. -/
theorem stripAllWS_append (a b : Str) : stripAllWS (a ++ b) = stripAllWS a ++ stripAllWS b :=
  List.filter_append _ _

/-- Dropping leading whitespace does not change the whitespace-free
content. -/
theorem stripAllWS_dropWhile (s : Str) :
    stripAllWS (s.dropWhile isWhitespaceChar) = stripAllWS s := by
  induction s with
  | nil => rfl
  | cons c cs ih =>
    by_cases h : isWhitespaceChar c
    · rw [List.dropWhile_cons_of_pos h, ih]
      simp [stripAllWS, List.filter_cons, h]
    · rw [List.dropWhile_cons_of_neg h]

/-- Removing all whitespace commutes with reversal. -/
theorem stripAllWS_reverse (s : Str) : stripAllWS s.reverse = (stripAllWS s).reverse :=
  List.filter_reverse _ _

/-- Python `strip()` removes only whitespace: the whitespace-free content
is unchanged. -/
theorem stripAllWS_pyStrip (s : Str) : stripAllWS (pyStrip s) = stripAllWS s := by
  unfold pyStrip
  rw [stripAllWS_reverse, stripAllWS_dropWhile, stripAllWS_reverse, List.reverse_reverse,
    stripAllWS_dropWhile]

/-- One scan step preserves the whitespace-free content: afterwards the
content of (finished segments + accumulator) is the old content followed
by the new cue's sanitized text. -/
theorem segStep_content (scope : Int) (st : SegState) (b : Cue) :
    stripAllWS ((segStep scope st b).segments.flatten ++ (segStep scope st b).segment_text)
    = stripAllWS (st.segments.flatten ++ st.segment_text)
      ++ stripAllWS (sanitize_text b.text) := by
  simp only [segStep]
  by_cases h : b.start / 60 ≥ (st.break_point : Rat)
  · rw [if_pos h]
    simp [stripAllWS_append, stripAllWS_pyStrip, List.append_assoc]
  · rw [if_neg h]
    simp only [stripAllWS_append]
    have hsp : stripAllWS (' ' :: sanitize_text b.text) = stripAllWS (sanitize_text b.text) := by
      simp [stripAllWS, List.filter_cons, show isWhitespaceChar ' ' = true from rfl]
    rw [hsp, List.append_assoc]

/-- The whole scan preserves the whitespace-free content. -/
theorem segFold_content (scope : Int) (cs : List Cue) : ∀ st : SegState,
    stripAllWS ((cs.foldl (segStep scope) st).segments.flatten
      ++ (cs.foldl (segStep scope) st).segment_text)
    = stripAllWS (st.segments.flatten ++ st.segment_text)
      ++ stripAllWS ((cs.map fun b => sanitize_text b.text).flatten) := by
  induction cs with
  | nil =>
    intro st
    simp [stripAllWS]
  | cons b cs ih =>
    intro st
    rw [List.foldl_cons, ih (segStep scope st b), segStep_content]
    simp [stripAllWS_append, List.append_assoc]

/-- Claim C2 counterexample: two cues inside the first window; the single
returned segment is `"a b"` (a separating space inserted by the scan)
while the concatenation of the sanitized cue texts is `"ab"`, so the two
concatenations are not equal as strings. -/
theorem segment_concat_exact_counterexample :
    get_transcript (.ok [⟨("a".data), 0, 1⟩, ⟨("b".data), 5, 1⟩]) ("x".data) 1
      = .ok (segmentTranscript [⟨("a".data), 0, 1⟩, ⟨("b".data), 5, 1⟩] 1) ∧
    segmentTranscript [⟨("a".data), 0, 1⟩, ⟨("b".data), 5, 1⟩] 1 = [("a b".data)] ∧
    (([⟨("a".data), 0, 1⟩, ⟨("b".data), 5, 1⟩] : List Cue).map
        fun b => sanitize_text b.text).flatten = ("ab".data) ∧
    [("a b".data)].flatten ≠ ("ab".data) := by
  refine ⟨rfl, ?_, by decide, by decide⟩
  norm_num [segmentTranscript, segStep, List.foldl]
  decide

/-- Claim C2 (amended): for every cue list and every `summary_scope ≥ 1`,
the concatenation of the segments returned by `get_transcript` equals the
concatenation of all cues' sanitized text in timeline order up to
whitespace (no non-whitespace character dropped or duplicated; the scan
inserts separating spaces and strips segment edges, so exact string
equality fails but whitespace-free content is preserved). -/
theorem segment_concat_up_to_whitespace (transcript : List Cue) (video_id : Str) (scope : Int)
    (Hscope : 1 ≤ scope) :
    get_transcript (.ok transcript) video_id scope
      = .ok (segmentTranscript transcript scope) ∧
    stripAllWS (segmentTranscript transcript scope).flatten
      = stripAllWS ((transcript.map fun b => sanitize_text b.text).flatten) := by
  refine ⟨rfl, ?_⟩
  have h := segFold_content scope transcript ⟨[], [], scope⟩
  simp only [List.flatten_nil, List.nil_append, List.append_nil] at h
  have hnil : stripAllWS ([] : Str) = [] := rfl
  rw [hnil, List.nil_append] at h
  simp only [segmentTranscript]
  split
  · rw [List.flatten_append, List.flatten_cons, List.flatten_nil, List.append_nil,
      stripAllWS_append, stripAllWS_pyStrip, ← stripAllWS_append]
    exact h
  · next hne =>
    have ht : (transcript.foldl (segStep scope) ⟨[], [], scope⟩).segment_text = [] := by
      by_contra hc
      exact hne hc
    rw [ht, List.append_nil] at h
    exact h

/-- Closed instance for C2 (amended) on the counterexample's cue list. -/
theorem segment_concat_up_to_whitespace_witness :
    get_transcript (.ok [⟨("a".data), 0, 1⟩, ⟨("b".data), 5, 1⟩]) ("x".data) 1
      = .ok (segmentTranscript [⟨("a".data), 0, 1⟩, ⟨("b".data), 5, 1⟩] 1) ∧
    stripAllWS (segmentTranscript [⟨("a".data), 0, 1⟩, ⟨("b".data), 5, 1⟩] 1).flatten
      = stripAllWS (([⟨("a".data), 0, 1⟩, ⟨("b".data), 5, 1⟩] : List Cue).map
          (fun b => sanitize_text b.text)).flatten :=
  segment_concat_up_to_whitespace [⟨("a".data), 0, 1⟩, ⟨("b".data), 5, 1⟩] ("x".data) 1
    (by norm_num)

/-- A separator that does not occur is never found. -/
theorem splitOnFirst_eq_none (sep : Char) (l : Str) (h : sep ∉ l) :
    splitOnFirst sep l = none := by
  induction l with
  | nil => rfl
  | cons c cs ih =>
    have hc : ¬c = sep := fun he => h (by rw [he]; exact List.mem_cons_self _ _)
    simp only [splitOnFirst, if_neg hc]
    rw [ih fun hm => h (List.mem_cons_of_mem _ hm)]

/-- Splitting skips over a separator-free prefix. -/
theorem splitOnFirst_append_of_not_mem (sep : Char) (l₁ l₂ : Str) (h : sep ∉ l₁) :
    splitOnFirst sep (l₁ ++ l₂)
      = (splitOnFirst sep l₂).map fun p => (l₁ ++ p.1, p.2) := by
  induction l₁ with
  | nil => cases hs : splitOnFirst sep l₂ <;> simp [hs]
  | cons c cs ih =>
    have hc : ¬c = sep := fun he => h (by rw [he]; exact List.mem_cons_self _ _)
    have hcs : sep ∉ cs := fun hm => h (List.mem_cons_of_mem _ hm)
    cases hs : splitOnFirst sep l₂ <;>
      simp [splitOnFirst, if_neg hc, ih hcs, hs]

/-- Splitting at the first separator after a separator-free prefix. -/
theorem splitOnFirst_append_sep (sep : Char) (l₁ l₂ : Str) (h : sep ∉ l₁) :
    splitOnFirst sep (l₁ ++ sep :: l₂) = some (l₁, l₂) := by
  rw [splitOnFirst_append_of_not_mem sep l₁ _ h]
  simp [splitOnFirst]

/-- Taking while a predicate holds passes over a prefix satisfying it. -/
theorem takeWhile_append_of_all (p : Char → Bool) (l₁ l₂ : Str) (h : l₁.all p = true) :
    (l₁ ++ l₂).takeWhile p = l₁ ++ l₂.takeWhile p := by
  induction l₁ with
  | nil => rfl
  | cons c cs ih =>
    simp only [List.all_cons, Bool.and_eq_true] at h
    simp only [List.cons_append, List.takeWhile_cons, h.1, if_true, ih h.2]

/-- Dropping while a predicate holds drops a prefix satisfying it. -/
theorem dropWhile_append_of_all (p : Char → Bool) (l₁ l₂ : Str) (h : l₁.all p = true) :
    (l₁ ++ l₂).dropWhile p = l₂.dropWhile p := by
  induction l₁ with
  | nil => rfl
  | cons c cs ih =>
    simp only [List.all_cons, Bool.and_eq_true] at h
    simp only [List.cons_append, List.dropWhile_cons, h.1, if_true, ih h.2]

/-- A separator-free string is a single chunk. -/
theorem splitAllAux_of_not_mem (sep : Char) (l : Str) (h : sep ∉ l) : ∀ acc : Str,
    splitAllAux sep acc l = [acc.reverse ++ l] := by
  induction l with
  | nil =>
    intro acc
    simp [splitAllAux]
  | cons c cs ih =>
    intro acc
    have hc : ¬c = sep := fun he => h (by rw [he]; exact List.mem_cons_self _ _)
    have hcs : sep ∉ cs := fun hm => h (List.mem_cons_of_mem _ hm)
    simp [splitAllAux, if_neg hc, ih hcs]

/-- Splitting peels off the chunk before the first separator. -/
theorem splitAllAux_append_sep (sep : Char) (l₁ l₂ : Str) (h : sep ∉ l₁) : ∀ acc : Str,
    splitAllAux sep acc (l₁ ++ sep :: l₂)
      = (acc.reverse ++ l₁) :: splitAllAux sep [] l₂ := by
  induction l₁ with
  | nil =>
    intro acc
    simp [splitAllAux]
  | cons c cs ih =>
    intro acc
    have hc : ¬c = sep := fun he => h (by rw [he]; exact List.mem_cons_self _ _)
    have hcs : sep ∉ cs := fun hm => h (List.mem_cons_of_mem _ hm)
    simp [splitAllAux, if_neg hc, ih hcs]

/-- A URL remainder without `#` and `?` is all path. -/
theorem splitFragmentQuery_no_frag_query (u : Str) (h1 : '#' ∉ u) (h2 : '?' ∉ u) :
    splitFragmentQuery u = (u, [], []) := by
  simp only [splitFragmentQuery, splitOnFirst_eq_none '#' u h1, splitOnFirst_eq_none '?' u h2]

/-- A URL remainder `path?query` (no `#`, no `?` in the path or query
prefix) splits into that path and query. -/
theorem splitFragmentQuery_query (p q : Str) (hp1 : '#' ∉ p) (hp2 : '?' ∉ p)
    (hq : '#' ∉ q) :
    splitFragmentQuery (p ++ '?' :: q) = (p, q, []) := by
  have hnf : '#' ∉ p ++ '?' :: q := by
    intro hc
    rcases List.mem_append.mp hc with hm | hm
    · exact hp1 hm
    · rcases List.mem_cons.mp hm with hm | hm
      · exact absurd hm (by decide)
      · exact hq hm
  simp only [splitFragmentQuery, splitOnFirst_eq_none '#' _ hnf,
    splitOnFirst_append_sep '?' p q hp2]

/-- Evaluation of `urlparse` on a well-formed `https://host/tail` URL:
scheme `https`, netloc `host`, and the remainder `/tail` handed to the
fragment/query split. -/
theorem urlparse_https (host tail0 : Str) (Hhost : host.all isNetlocChar = true) :
    urlparse (("https://".data) ++ host ++ '/' :: tail0)
      = ⟨("https".data), host,
          (splitFragmentQuery ('/' :: tail0)).1,
          (splitFragmentQuery ('/' :: tail0)).2.1,
          (splitFragmentQuery ('/' :: tail0)).2.2⟩ := by
  have e0 : ("https://".data) ++ host ++ '/' :: tail0
      = ("https".data) ++ ':' :: ('/' :: '/' :: (host ++ '/' :: tail0)) := by
    rw [show ("https://".data) = ("https".data) ++ ':' :: '/' :: '/' :: [] from by decide]
    simp [List.append_assoc]
  have hs : schemeSplit (("https://".data) ++ host ++ '/' :: tail0)
      = (("https".data), '/' :: '/' :: (host ++ '/' :: tail0)) := by
    rw [e0]
    simp only [schemeSplit,
      splitOnFirst_append_sep ':' _ _ (by decide : ':' ∉ ("https".data))]
    rw [if_pos (by decide : isValidScheme ("https".data) = true)]
    rfl
  have hn : netlocSplit ('/' :: '/' :: (host ++ '/' :: tail0)) = (host, '/' :: tail0) := by
    simp only [netlocSplit]
    rw [takeWhile_append_of_all _ _ _ Hhost, dropWhile_append_of_all _ _ _ Hhost]
    rw [List.takeWhile_cons_of_neg (by decide), List.dropWhile_cons_of_neg (by decide)]
    simp
  simp only [urlparse, hs, hn]

/-- An empty query has no `v` parameter. -/
theorem parse_qs_first_nil (key : Str) : parse_qs_first [] key = none := rfl

/-- A `v=<id>` pair with non-empty id yields the id. -/
theorem qsPair_v (id : Str) (hne : id ≠ []) :
    qsPair ['v'] ('v' :: '=' :: id) = some id := by
  simp only [qsPair,
    show splitOnFirst '=' ('v' :: '=' :: id) = some (['v'], id) from rfl]
  rw [if_pos ⟨trivial, hne⟩]

/-- A query `v=<id>` with `&`-free non-empty id resolves `v` to the id. -/
theorem parse_qs_first_single_v (id : Str) (ha : '&' ∉ id) (hne : id ≠ []) :
    parse_qs_first (("v=".data) ++ id) ("v".data) = some id := by
  have hnm : '&' ∉ ("v=".data) ++ id := by
    intro hc
    rcases List.mem_append.mp hc with hm | hm
    · exact absurd hm (by decide)
    · exact ha hm
  unfold parse_qs_first splitAll
  rw [splitAllAux_of_not_mem '&' _ hnm []]
  simp [List.filterMap_cons, qsPair_v id hne]

/-- A query `v=<id1>&v=<id2>` resolves `v` to the FIRST value. -/
theorem parse_qs_first_two_v (id1 id2 : Str) (ha : '&' ∉ id1) (hne : id1 ≠ []) :
    parse_qs_first ((("v=".data) ++ id1) ++ '&' :: (("v=".data) ++ id2)) ("v".data)
      = some id1 := by
  have hnm : '&' ∉ ("v=".data) ++ id1 := by
    intro hc
    rcases List.mem_append.mp hc with hm | hm
    · exact absurd hm (by decide)
    · exact ha hm
  unfold parse_qs_first splitAll
  rw [splitAllAux_append_sep '&' _ _ hnm []]
  simp [List.filterMap_cons, qsPair_v id1 hne]

/-- Evaluation of `urlparse` on a `watch`-style URL with abstract query. -/
theorem urlparse_watch (Q : Str) (hQ : '#' ∉ Q) :
    urlparse (("https://www.youtube.com/watch?".data) ++ Q)
      = ⟨("https".data), ("www.youtube.com".data), ("/watch".data), Q, []⟩ := by
  have e : ("https://www.youtube.com/watch?".data) ++ Q
      = ("https://".data) ++ ("www.youtube.com".data)
          ++ '/' :: (("watch".data) ++ '?' :: Q) := by
    rw [show ("https://www.youtube.com/watch?".data)
        = ("https://".data) ++ ("www.youtube.com".data)
            ++ '/' :: (("watch".data) ++ '?' :: []) from by decide]
    simp [List.append_assoc]
  rw [e, urlparse_https _ _ (by decide)]
  rw [show '/' :: (("watch".data) ++ '?' :: Q) = ("/watch".data) ++ '?' :: Q from rfl]
  rw [splitFragmentQuery_query ("/watch".data) Q (by decide) (by decide) hQ]

/-- Evaluation of `urlparse` on a short-link URL with abstract path rest. -/
theorem urlparse_shortlink (t : Str) (h1 : '#' ∉ t) (h2 : '?' ∉ t) :
    urlparse (("https://youtu.be/".data) ++ t)
      = ⟨("https".data), ("youtu.be".data), '/' :: t, [], []⟩ := by
  have e : ("https://youtu.be/".data) ++ t
      = ("https://".data) ++ ("youtu.be".data) ++ '/' :: t := by
    rw [show ("https://youtu.be/".data)
        = ("https://".data) ++ ("youtu.be".data) ++ '/' :: [] from by decide]
    simp [List.append_assoc]
  have hh : '#' ∉ '/' :: t := by
    intro hc
    rcases List.mem_cons.mp hc with hm | hm
    · exact absurd hm (by decide)
    · exact h1 hm
  have hq : '?' ∉ '/' :: t := by
    intro hc
    rcases List.mem_cons.mp hc with hm | hm
    · exact absurd hm (by decide)
    · exact h2 hm
  rw [e, urlparse_https _ _ (by decide), splitFragmentQuery_no_frag_query ('/' :: t) hh hq]

/-- Evaluation of `urlparse` on a short-link URL carrying a query. -/
theorem urlparse_shortlink_query (pid Q : Str) (hp1 : '#' ∉ pid) (hp2 : '?' ∉ pid)
    (hQ : '#' ∉ Q) :
    urlparse ((("https://youtu.be/".data) ++ pid) ++ '?' :: Q)
      = ⟨("https".data), ("youtu.be".data), '/' :: pid, Q, []⟩ := by
  have e : (("https://youtu.be/".data) ++ pid) ++ '?' :: Q
      = ("https://".data) ++ ("youtu.be".data) ++ '/' :: (pid ++ '?' :: Q) := by
    rw [show ("https://youtu.be/".data)
        = ("https://".data) ++ ("youtu.be".data) ++ '/' :: [] from by decide]
    simp [List.append_assoc]
  have hp1' : '#' ∉ '/' :: pid := by
    intro hc
    rcases List.mem_cons.mp hc with hm | hm
    · exact absurd hm (by decide)
    · exact hp1 hm
  have hp2' : '?' ∉ '/' :: pid := by
    intro hc
    rcases List.mem_cons.mp hc with hm | hm
    · exact absurd hm (by decide)
    · exact hp2 hm
  rw [e, urlparse_https _ _ (by decide)]
  rw [show '/' :: (pid ++ '?' :: Q) = ('/' :: pid) ++ '?' :: Q from rfl]
  rw [splitFragmentQuery_query ('/' :: pid) Q hp1' hp2' hQ]

/-- Evaluation of `urlparse` on a `www.youtube.com` URL with abstract
path rest and no query or fragment. -/
theorem urlparse_youtube_path (t : Str) (h1 : '#' ∉ t) (h2 : '?' ∉ t) :
    urlparse (("https://www.youtube.com/".data) ++ t)
      = ⟨("https".data), ("www.youtube.com".data), '/' :: t, [], []⟩ := by
  have e : ("https://www.youtube.com/".data) ++ t
      = ("https://".data) ++ ("www.youtube.com".data) ++ '/' :: t := by
    rw [show ("https://www.youtube.com/".data)
        = ("https://".data) ++ ("www.youtube.com".data) ++ '/' :: [] from by decide]
    simp [List.append_assoc]
  have hh : '#' ∉ '/' :: t := by
    intro hc
    rcases List.mem_cons.mp hc with hm | hm
    · exact absurd hm (by decide)
    · exact h1 hm
  have hq : '?' ∉ '/' :: t := by
    intro hc
    rcases List.mem_cons.mp hc with hm | hm
    · exact absurd hm (by decide)
    · exact h2 hm
  rw [e, urlparse_https _ _ (by decide), splitFragmentQuery_no_frag_query ('/' :: t) hh hq]

/-- A path `/<seg>/<id>` (no `/` in either part) splits into three
components. -/
theorem splitAll_slash_seg (seg id : Str) (hseg : '/' ∉ seg) (hid : '/' ∉ id) :
    splitAll '/' ('/' :: (seg ++ '/' :: id)) = [[], seg, id] := by
  unfold splitAll
  rw [show splitAllAux '/' [] ('/' :: (seg ++ '/' :: id))
      = List.reverse ([] : Str) :: splitAllAux '/' [] (seg ++ '/' :: id) from rfl]
  rw [splitAllAux_append_sep '/' seg id hseg []]
  rw [splitAllAux_of_not_mem '/' id hid []]
  simp

/-- A `watch?v=<id>` URL extracts `<id>`. -/
theorem extract_watch_v (id : Str) (hne : id ≠ []) (hh : '#' ∉ id) (ha : '&' ∉ id) :
    extract_video_id (("https://www.youtube.com/watch?v=".data) ++ id) = .ok id := by
  rw [show ("https://www.youtube.com/watch?v=".data) ++ id
      = ("https://www.youtube.com/watch?".data) ++ (("v=".data) ++ id) from rfl]
  have hq : '#' ∉ ("v=".data) ++ id := by
    intro hc
    rcases List.mem_append.mp hc with hm | hm
    · exact absurd hm (by decide)
    · exact hh hm
  unfold extract_video_id
  rw [urlparse_watch _ hq]
  dsimp only
  rw [parse_qs_first_single_v id ha hne]

/-- A `watch?v=<id1>&v=<id2>` URL extracts the FIRST value `<id1>`. -/
theorem extract_watch_two_v (id1 id2 : Str) (hne : id1 ≠ []) (hh1 : '#' ∉ id1)
    (ha1 : '&' ∉ id1) (hh2 : '#' ∉ id2) :
    extract_video_id ((("https://www.youtube.com/watch?v=".data) ++ id1)
        ++ '&' :: (("v=".data) ++ id2)) = .ok id1 := by
  rw [show (("https://www.youtube.com/watch?v=".data) ++ id1) ++ '&' :: (("v=".data) ++ id2)
      = ("https://www.youtube.com/watch?".data)
          ++ ((("v=".data) ++ id1) ++ '&' :: (("v=".data) ++ id2)) from rfl]
  have hq : '#' ∉ (("v=".data) ++ id1) ++ '&' :: (("v=".data) ++ id2) := by
    intro hc
    rcases List.mem_append.mp hc with hm | hm
    · rcases List.mem_append.mp hm with hm2 | hm2
      · exact absurd hm2 (by decide)
      · exact hh1 hm2
    · rcases List.mem_cons.mp hm with hm2 | hm2
      · exact absurd hm2 (by decide)
      · rcases List.mem_append.mp hm2 with hm3 | hm3
        · exact absurd hm3 (by decide)
        · exact hh2 hm3
  unfold extract_video_id
  rw [urlparse_watch _ hq]
  dsimp only
  rw [parse_qs_first_two_v id1 id2 ha1 hne]

/-- A short-link URL carrying a `v` query parameter extracts the `v`
value, not the path (the `v` pattern has priority). -/
theorem extract_shortlink_v_priority (pid id : Str) (hp1 : '#' ∉ pid) (hp2 : '?' ∉ pid)
    (hne : id ≠ []) (hh : '#' ∉ id) (ha : '&' ∉ id) :
    extract_video_id ((("https://youtu.be/".data) ++ pid) ++ '?' :: (("v=".data) ++ id))
      = .ok id := by
  have hq : '#' ∉ ("v=".data) ++ id := by
    intro hc
    rcases List.mem_append.mp hc with hm | hm
    · exact absurd hm (by decide)
    · exact hh hm
  unfold extract_video_id
  rw [urlparse_shortlink_query pid _ hp1 hp2 hq]
  dsimp only
  rw [parse_qs_first_single_v id ha hne]

/-- A short-link URL `https://youtu.be/<id>` extracts `<id>` (the path
minus its leading separator). -/
theorem extract_shortlink (id : Str) (h1 : '#' ∉ id) (h2 : '?' ∉ id) :
    extract_video_id (("https://youtu.be/".data) ++ id) = .ok id := by
  unfold extract_video_id
  rw [urlparse_shortlink id h1 h2]
  dsimp only
  rw [parse_qs_first_nil]
  rw [if_pos ⟨rfl, List.cons_ne_nil _ _⟩]
  rfl

/-- An embed URL `https://www.youtube.com/embed/<id>` extracts the final
path segment `<id>`. -/
theorem extract_embed (id : Str) (h1 : '#' ∉ id) (h2 : '?' ∉ id) (h3 : '/' ∉ id) :
    extract_video_id (("https://www.youtube.com/embed/".data) ++ id) = .ok id := by
  rw [show ("https://www.youtube.com/embed/".data) ++ id
      = ("https://www.youtube.com/".data) ++ (("embed".data) ++ '/' :: id) from rfl]
  have h1' : '#' ∉ ("embed".data) ++ '/' :: id := by
    intro hc
    rcases List.mem_append.mp hc with hm | hm
    · exact absurd hm (by decide)
    · rcases List.mem_cons.mp hm with hm2 | hm2
      · exact absurd hm2 (by decide)
      · exact h1 hm2
  have h2' : '?' ∉ ("embed".data) ++ '/' :: id := by
    intro hc
    rcases List.mem_append.mp hc with hm | hm
    · exact absurd hm (by decide)
    · rcases List.mem_cons.mp hm with hm2 | hm2
      · exact absurd hm2 (by decide)
      · exact h2 hm2
  unfold extract_video_id
  rw [urlparse_youtube_path _ h1' h2']
  dsimp only
  rw [parse_qs_first_nil]
  rw [if_neg fun hcontra => absurd hcontra.1 (by decide)]
  rw [splitAll_slash_seg ("embed".data) id (by decide) h3]
  rw [if_pos (by simp)]
  rfl

/-- A shorts URL `https://www.youtube.com/shorts/<id>` extracts the final
path segment `<id>`. -/
theorem extract_shorts (id : Str) (h1 : '#' ∉ id) (h2 : '?' ∉ id) (h3 : '/' ∉ id) :
    extract_video_id (("https://www.youtube.com/shorts/".data) ++ id) = .ok id := by
  rw [show ("https://www.youtube.com/shorts/".data) ++ id
      = ("https://www.youtube.com/".data) ++ (("shorts".data) ++ '/' :: id) from rfl]
  have h1' : '#' ∉ ("shorts".data) ++ '/' :: id := by
    intro hc
    rcases List.mem_append.mp hc with hm | hm
    · exact absurd hm (by decide)
    · rcases List.mem_cons.mp hm with hm2 | hm2
      · exact absurd hm2 (by decide)
      · exact h1 hm2
  have h2' : '?' ∉ ("shorts".data) ++ '/' :: id := by
    intro hc
    rcases List.mem_append.mp hc with hm | hm
    · exact absurd hm (by decide)
    · rcases List.mem_cons.mp hm with hm2 | hm2
      · exact absurd hm2 (by decide)
      · exact h2 hm2
  unfold extract_video_id
  rw [urlparse_youtube_path _ h1' h2']
  dsimp only
  rw [parse_qs_first_nil]
  rw [if_neg fun hcontra => absurd hcontra.1 (by decide)]
  rw [splitAll_slash_seg ("shorts".data) id (by decide) h3]
  by_cases hm : ("embed".data) ∈ [([] : Str), ("shorts".data), id]
  · rw [if_pos hm]
    rfl
  · rw [if_neg hm, if_pos (by simp)]
    rfl

/-- A URL matching none of the four patterns raises the invalid-URL
error. -/
theorem extract_no_pattern (url : Str)
    (Hv : parse_qs_first (urlparse url).query ("v".data) = none)
    (Hn : ¬((urlparse url).netloc = ("youtu.be".data) ∧ (urlparse url).path ≠ []))
    (He : ("embed".data) ∉ splitAll '/' (urlparse url).path)
    (Hs : ("shorts".data) ∉ splitAll '/' (urlparse url).path) :
    extract_video_id url
      = .error ("No valid video ID found in the provided YouTube URL".data) := by
  simp only [extract_video_id]
  rw [Hv, if_neg Hn, if_neg He, if_neg Hs]

/-- Claim C6: `extract_video_id` follows the four patterns in priority
order — every URL with a `v=<id>` query parameter yields exactly the first
`v` value (even on the short-link host); a short-link URL yields the path
minus its leading separator; embed and shorts URLs yield the final path
segment; a URL matching none of the four patterns fails with the
invalid-URL error. Hypotheses restrict the abstract id parts to
delimiter-free characters, as URL ids are. -/
theorem extract_video_id_patterns :
    (∀ id : Str, id ≠ [] → '#' ∉ id → '&' ∉ id →
      extract_video_id (("https://www.youtube.com/watch?v=".data) ++ id) = .ok id) ∧
    (∀ id1 id2 : Str, id1 ≠ [] → '#' ∉ id1 → '&' ∉ id1 → '#' ∉ id2 →
      extract_video_id ((("https://www.youtube.com/watch?v=".data) ++ id1)
          ++ '&' :: (("v=".data) ++ id2)) = .ok id1) ∧
    (∀ pid id : Str, '#' ∉ pid → '?' ∉ pid → id ≠ [] → '#' ∉ id → '&' ∉ id →
      extract_video_id ((("https://youtu.be/".data) ++ pid) ++ '?' :: (("v=".data) ++ id))
        = .ok id) ∧
    (∀ id : Str, '#' ∉ id → '?' ∉ id →
      extract_video_id (("https://youtu.be/".data) ++ id) = .ok id) ∧
    (∀ id : Str, '#' ∉ id → '?' ∉ id → '/' ∉ id →
      extract_video_id (("https://www.youtube.com/embed/".data) ++ id) = .ok id) ∧
    (∀ id : Str, '#' ∉ id → '?' ∉ id → '/' ∉ id →
      extract_video_id (("https://www.youtube.com/shorts/".data) ++ id) = .ok id) ∧
    (∀ url : Str, parse_qs_first (urlparse url).query ("v".data) = none →
      ¬((urlparse url).netloc = ("youtu.be".data) ∧ (urlparse url).path ≠ []) →
      ("embed".data) ∉ splitAll '/' (urlparse url).path →
      ("shorts".data) ∉ splitAll '/' (urlparse url).path →
      extract_video_id url
        = .error ("No valid video ID found in the provided YouTube URL".data)) :=
  ⟨fun id hne hh ha => extract_watch_v id hne hh ha,
   fun id1 id2 hne hh1 ha1 hh2 => extract_watch_two_v id1 id2 hne hh1 ha1 hh2,
   fun pid id hp1 hp2 hne hh ha => extract_shortlink_v_priority pid id hp1 hp2 hne hh ha,
   fun id h1 h2 => extract_shortlink id h1 h2,
   fun id h1 h2 h3 => extract_embed id h1 h2 h3,
   fun id h1 h2 h3 => extract_shorts id h1 h2 h3,
   fun url hv hn he hs => extract_no_pattern url hv hn he hs⟩

/-- Closed instances for C6, one per pattern family. -/
theorem extract_video_id_patterns_witness :
    extract_video_id ("https://www.youtube.com/watch?v=abc123".data) = .ok ("abc123".data) ∧
    extract_video_id ("https://www.youtube.com/watch?v=abc123&v=zzz".data)
      = .ok ("abc123".data) ∧
    extract_video_id ("https://youtu.be/abc?v=def456".data) = .ok ("def456".data) ∧
    extract_video_id ("https://youtu.be/abc123".data) = .ok ("abc123".data) ∧
    extract_video_id ("https://www.youtube.com/embed/abc123".data) = .ok ("abc123".data) ∧
    extract_video_id ("https://www.youtube.com/shorts/abc123".data) = .ok ("abc123".data) ∧
    extract_video_id ("https://example.com/watch".data)
      = .error ("No valid video ID found in the provided YouTube URL".data) := by
  refine ⟨?_, ?_, ?_, ?_, ?_, ?_, ?_⟩
  · rw [show ("https://www.youtube.com/watch?v=abc123".data)
        = ("https://www.youtube.com/watch?v=".data) ++ ("abc123".data) from by decide]
    exact extract_video_id_patterns.1 ("abc123".data) (by decide) (by decide) (by decide)
  · rw [show ("https://www.youtube.com/watch?v=abc123&v=zzz".data)
        = (("https://www.youtube.com/watch?v=".data) ++ ("abc123".data))
            ++ '&' :: (("v=".data) ++ ("zzz".data)) from by decide]
    exact extract_video_id_patterns.2.1 ("abc123".data) ("zzz".data) (by decide) (by decide)
      (by decide) (by decide)
  · rw [show ("https://youtu.be/abc?v=def456".data)
        = (("https://youtu.be/".data) ++ ("abc".data))
            ++ '?' :: (("v=".data) ++ ("def456".data)) from by decide]
    exact extract_video_id_patterns.2.2.1 ("abc".data) ("def456".data) (by decide) (by decide)
      (by decide) (by decide) (by decide)
  · rw [show ("https://youtu.be/abc123".data)
        = ("https://youtu.be/".data) ++ ("abc123".data) from by decide]
    exact extract_video_id_patterns.2.2.2.1 ("abc123".data) (by decide) (by decide)
  · rw [show ("https://www.youtube.com/embed/abc123".data)
        = ("https://www.youtube.com/embed/".data) ++ ("abc123".data) from by decide]
    exact extract_video_id_patterns.2.2.2.2.1 ("abc123".data) (by decide) (by decide) (by decide)
  · rw [show ("https://www.youtube.com/shorts/abc123".data)
        = ("https://www.youtube.com/shorts/".data) ++ ("abc123".data) from by decide]
    exact extract_video_id_patterns.2.2.2.2.2.1 ("abc123".data) (by decide) (by decide)
      (by decide)
  · exact extract_video_id_patterns.2.2.2.2.2.2 ("https://example.com/watch".data)
      (by decide) (by decide) (by decide) (by decide)

/-- A scope of at least one minute is positive as a rational. -/
theorem scope_pos {scope : Int} (h : 1 ≤ scope) : (0 : Rat) < (scope : Rat) := by
  exact_mod_cast lt_of_lt_of_le Int.zero_lt_one h

/-- Window indices are monotone in the start time. -/
theorem cueWindow_mono (scope : Int) (h : 1 ≤ scope) (a b : Cue)
    (hab : a.start ≤ b.start) : cueWindow scope a ≤ cueWindow scope b := by
  unfold cueWindow
  apply Int.floor_mono
  apply div_le_div_of_nonneg_right _ (le_of_lt (scope_pos h))
  exact div_le_div_of_nonneg_right hab (by norm_num)

/-- A gap of less than `scope` minutes advances the window index by at
most one. -/
theorem cueWindow_succ_bound (scope : Int) (h : 1 ≤ scope) (a b : Cue)
    (hgap : b.start / 60 < a.start / 60 + (scope : Rat)) :
    cueWindow scope b ≤ cueWindow scope a + 1 := by
  unfold cueWindow
  have hR := scope_pos h
  have hx : b.start / 60 / (scope : Rat) < a.start / 60 / (scope : Rat) + 1 := by
    rw [div_lt_iff hR]
    have : (a.start / 60 / (scope : Rat) + 1) * (scope : Rat)
        = a.start / 60 / (scope : Rat) * (scope : Rat) + (scope : Rat) := by ring
    rw [this, div_mul_cancel₀ _ (ne_of_gt hR)]
    exact hgap
  have := Int.floor_mono (le_of_lt hx)
  rwa [Int.floor_add_one] at this

/-- The `>=` test against `scope * (m + 1)` holds iff the cue's window
index is at least `m + 1`. -/
theorem break_cond_iff (scope : Int) (Hscope : 1 ≤ scope) (m : Int) (b : Cue) :
    (b.start / 60 ≥ ((scope * (m + 1) : Int) : Rat)) ↔ m + 1 ≤ cueWindow scope b := by
  unfold cueWindow
  rw [ge_iff_le, Int.le_floor, le_div_iff (scope_pos Hscope)]
  push_cast
  constructor <;> intro h <;> nlinarith [h]

/-- The scan invariant: after processing a block of cues that starts
right after `prev` (sorted, gaps under `scope` minutes, non-empty
sanitized texts), the threshold is `scope * (window(last) + 1)`, the
number of closed segments is `window(last)`, and the accumulator is
non-empty, where `window` is the cue's `scope`-minute window index. -/
theorem segFold_window_invariant (scope : Int) (Hscope : 1 ≤ scope) (cs : List Cue) :
    ∀ (prev : Cue) (st : SegState),
      st.break_point = scope * (cueWindow scope prev + 1) →
      (st.segments.length : Int) = cueWindow scope prev →
      st.segment_text ≠ [] →
      List.Chain (CueGap scope) prev cs →
      (∀ c ∈ cs, sanitize_text c.text ≠ []) →
      ((cs.foldl (segStep scope) st).break_point
          = scope * (cueWindow scope (cs.getLastD prev) + 1) ∧
        ((cs.foldl (segStep scope) st).segments.length : Int)
          = cueWindow scope (cs.getLastD prev) ∧
        (cs.foldl (segStep scope) st).segment_text ≠ []) := by
  induction cs with
  | nil =>
    intro prev st h1 h2 h3 _ _
    exact ⟨h1, h2, h3⟩
  | cons b cs ih =>
    intro prev st h1 h2 h3 hchain htext
    rw [List.chain_cons] at hchain
    obtain ⟨⟨hab, hgap⟩, hchain2⟩ := hchain
    have hmono : cueWindow scope prev ≤ cueWindow scope b :=
      cueWindow_mono scope Hscope prev b hab
    have hbound : cueWindow scope b ≤ cueWindow scope prev + 1 :=
      cueWindow_succ_bound scope Hscope prev b hgap
    rw [List.foldl_cons, List.getLastD_cons]
    by_cases hbr : b.start / 60 ≥ (st.break_point : Rat)
    · have hwin : cueWindow scope b = cueWindow scope prev + 1 := by
        have hge : cueWindow scope prev + 1 ≤ cueWindow scope b := by
          rw [h1] at hbr
          exact (break_cond_iff scope Hscope (cueWindow scope prev) b).mp hbr
        omega
      have hstep : segStep scope st b
          = ⟨st.segments ++ [pyStrip st.segment_text], sanitize_text b.text,
              st.break_point + scope⟩ := by
        simp only [segStep]
        rw [if_pos hbr]
      rw [hstep]
      apply ih b _ _ _ _ hchain2 (fun c hc => htext c (List.mem_cons_of_mem _ hc))
      · show st.break_point + scope = scope * (cueWindow scope b + 1)
        rw [h1, hwin]
        ring
      · show ((st.segments ++ [pyStrip st.segment_text]).length : Int) = cueWindow scope b
        rw [List.length_append, hwin]
        simp only [List.length_singleton]
        push_cast
        omega
      · exact htext b (List.mem_cons_self _ _)
    · have hwin : cueWindow scope b = cueWindow scope prev := by
        have hlt : ¬(cueWindow scope prev + 1 ≤ cueWindow scope b) := by
          intro hc
          apply hbr
          rw [h1]
          exact (break_cond_iff scope Hscope (cueWindow scope prev) b).mpr hc
        omega
      have hstep : segStep scope st b
          = { st with segment_text := st.segment_text ++ ' ' :: sanitize_text b.text } := by
        simp only [segStep]
        rw [if_neg hbr]
      rw [hstep]
      apply ih b _ _ _ _ hchain2 (fun c hc => htext c (List.mem_cons_of_mem _ hc))
      · show st.break_point = scope * (cueWindow scope b + 1)
        rw [h1, hwin]
      · show (st.segments.length : Int) = cueWindow scope b
        rw [h2, hwin]
      · show st.segment_text ++ ' ' :: sanitize_text b.text ≠ []
        simp

/-- Claim C1 counterexample: two cues 0 s and 300 s with a 5-minute gap
and `summary_scope = 1`; the video spans 305 s so
`ceil(video_duration_minutes / summary_scope) = 6`, but `get_transcript`
returns only 2 segments (the scan closes at most one segment per cue, so
empty windows produce no segments). -/
theorem segment_count_counterexample :
    get_transcript (.ok [⟨("a".data), 0, 5⟩, ⟨("b".data), 300, 5⟩]) ("x".data) 1
      = .ok [("a".data), ("b".data)] ∧
    (⌈(((300 : Rat) + 5) / 60) / ((1 : Int) : Rat)⌉ : Int) = 6 ∧
    ([("a".data), ("b".data)].length : Int) ≠ 6 := by
  refine ⟨?_, ?_, by decide⟩
  · norm_num [get_transcript, segmentTranscript, segStep, List.foldl]
    decide
  · rw [Int.ceil_eq_iff] <;> norm_num

/-- Claim C1 (amended): for a fetched cue list in timeline order whose
first cue starts within the first window, whose consecutive gaps are
under `summary_scope` minutes, and whose sanitized texts are non-empty,
`get_transcript` returns `window(last_start) + 1` segments, which equals
`ceil(video_duration_minutes / summary_scope)` for any video duration `D`
lying inside the last segment's window (the last segment possibly
covering a shorter span). Without the density hypotheses the stated count
fails (see the counterexample). -/
theorem segment_count_dense (c0 : Cue) (rest : List Cue) (video_id : Str) (scope : Int)
    (D : Rat) (Hscope : 1 ≤ scope) (H0 : 0 ≤ c0.start)
    (Hfirst : c0.start / 60 < (scope : Rat))
    (Hchain : List.Chain (CueGap scope) c0 rest)
    (Htext : ∀ c ∈ c0 :: rest, sanitize_text c.text ≠ [])
    (HD1 : (scope : Rat) * ((cueWindow scope (rest.getLastD c0) : Int) : Rat) < D)
    (HD2 : D ≤ (scope : Rat) * (((cueWindow scope (rest.getLastD c0) : Int) : Rat) + 1)) :
    ∃ segs, get_transcript (.ok (c0 :: rest)) video_id scope = .ok segs ∧
      (segs.length : Int) = ⌈D / (scope : Rat)⌉ := by
  have hR := scope_pos Hscope
  have hw0 : cueWindow scope c0 = 0 := by
    unfold cueWindow
    rw [Int.floor_eq_zero_iff, Set.mem_Ico]
    constructor
    · exact div_nonneg (div_nonneg H0 (by norm_num)) (le_of_lt hR)
    · rw [div_lt_one hR]
      exact Hfirst
  have hbr0 : ¬(c0.start / 60 ≥ ((scope : Int) : Rat)) := not_le.mpr Hfirst
  have hstep : segStep scope ⟨[], [], scope⟩ c0
      = ⟨[], ' ' :: sanitize_text c0.text, scope⟩ := by
    simp only [segStep]
    rw [if_neg hbr0]
    rfl
  obtain ⟨hbp, hlen, htxt⟩ :=
    segFold_window_invariant scope Hscope rest c0 ⟨[], ' ' :: sanitize_text c0.text, scope⟩
      (by show scope = scope * (cueWindow scope c0 + 1); rw [hw0]; ring)
      (by show ((0 : Nat) : Int) = cueWindow scope c0; rw [hw0]; rfl)
      (by simp)
      Hchain
      (fun c hc => Htext c (List.mem_cons_of_mem _ hc))
  have hceil : ⌈D / (scope : Rat)⌉ = cueWindow scope (rest.getLastD c0) + 1 := by
    rw [Int.ceil_eq_iff]
    constructor
    · push_cast
      rw [show ((cueWindow scope (rest.getLastD c0) : Int) : Rat) + 1 - 1
          = ((cueWindow scope (rest.getLastD c0) : Int) : Rat) from by ring]
      rw [lt_div_iff hR]
      nlinarith [HD1]
    · rw [div_le_iff hR]
      push_cast
      nlinarith [HD2]
  refine ⟨segmentTranscript (c0 :: rest) scope, rfl, ?_⟩
  simp only [segmentTranscript, List.foldl_cons, hstep]
  rw [if_pos htxt, List.length_append, hceil]
  simp only [List.length_singleton]
  push_cast
  omega

/-- Closed instance for C1 (amended): five cues at 0, 110, 220, 330 and
390 s with `summary_scope = 2` and a 7-minute video: 4 segments, and
`ceil(7 / 2) = 4`. -/
theorem segment_count_dense_witness :
    ∃ segs, get_transcript (.ok [⟨("a".data), 0, 30⟩, ⟨("b".data), 110, 30⟩,
        ⟨("c".data), 220, 30⟩, ⟨("d".data), 330, 30⟩, ⟨("e".data), 390, 30⟩])
        ("utU9L8ONRbk".data) 2 = .ok segs ∧
      (segs.length : Int) = ⌈(7 : Rat) / ((2 : Int) : Rat)⌉ :=
  segment_count_dense ⟨("a".data), 0, 30⟩
    [⟨("b".data), 110, 30⟩, ⟨("c".data), 220, 30⟩, ⟨("d".data), 330, 30⟩,
      ⟨("e".data), 390, 30⟩]
    ("utU9L8ONRbk".data) 2 7
    (by norm_num)
    (by norm_num)
    (by norm_num)
    (by
      refine List.Chain.cons ⟨by norm_num, by norm_num [CueGap]⟩ ?_
      refine List.Chain.cons ⟨by norm_num, by norm_num [CueGap]⟩ ?_
      refine List.Chain.cons ⟨by norm_num, by norm_num [CueGap]⟩ ?_
      exact List.Chain.cons ⟨by norm_num, by norm_num [CueGap]⟩ List.Chain.nil)
    (by
      intro c hc
      fin_cases hc <;> decide)
    (by
      rw [show ([⟨("b".data), 110, 30⟩, ⟨("c".data), 220, 30⟩, ⟨("d".data), 330, 30⟩,
          ⟨("e".data), 390, 30⟩] : List Cue).getLastD ⟨("a".data), 0, 30⟩
          = ⟨("e".data), 390, 30⟩ from rfl]
      rw [show cueWindow 2 ⟨("e".data), 390, 30⟩ = 3 from by norm_num [cueWindow]]
      norm_num)
    (by
      rw [show ([⟨("b".data), 110, 30⟩, ⟨("c".data), 220, 30⟩, ⟨("d".data), 330, 30⟩,
          ⟨("e".data), 390, 30⟩] : List Cue).getLastD ⟨("a".data), 0, 30⟩
          = ⟨("e".data), 390, 30⟩ from rfl]
      rw [show cueWindow 2 ⟨("e".data), 390, 30⟩ = 3 from by norm_num [cueWindow]]
      norm_num)

end SummarizeYoutube
